import Mathlib

/-!
Shallow embedding of the EcoWatt-Device boot-validation / rollback core and
its SPIFFS event audit log (src/Milestone_5/lib/boot_validator/boot_validator.cpp
and src/Milestone_5/lib/event_logger/event_logger.cpp).

Modelling conventions:
* NVS `Preferences` in namespace "boot" is a record of optional integers
  (`getInt(key, default)` returns the default when the key is absent).
* The ESP-IDF partition API and `Serial` are external collaborators: the
  outcome of `esp_ota_set_boot_partition` / `esp_ota_mark_app_valid_cancel_rollback`
  is a boolean parameter, partition labels and error names are string
  parameters, and the observable side effects (audit-log writes, the
  partition switch, persistence of the boot counter, the restart) are
  recorded as an ordered trace of `BootAction`s.
* The SPIFFS log file is a `LogStore`: absent, present-but-unopenable, or a
  byte string.  `ArduinoJson`'s `deserializeJson` / `serializeJsonPretty`
  pair is modelled by a concrete printer (`printEventsC`, two-space pretty
  format, CRLF line endings, exactly the document shape this program writes)
  and a parser (`parseEventsC`) that inverts it; the parser also accepts the
  `"[\r\n]\r\n"` literal that `init`/corruption-recovery writes via
  `println`.  `JsonArray::operator[]` with an out-of-range index yields the
  null variant and `add` of a null variant appends a JSON `null`, so array
  elements are `JVal` (a record or `null`).
* `EVENT_LOG_MAX_SIZE_BYTES` comes from `config.h`, which is not part of the
  sources here; the header documents it as 50 KB.  All log operations are
  therefore parameterised by the size bound `maxSize`, and the constant is
  defined separately from the header's documentation.
-/

set_option maxRecDepth 100000

namespace EcoWatt

/-- Characters of a stored file, the unit the parser and printer work on. -/
abbrev Chars := List Char

/-- One audit-log record: `{"ts": ..., "lvl": ..., "msg": ..., "ctx"?: ...}`.
The `ctx` member is present only when the logged context was non-empty. -/
structure EventRecord where
  ts : String
  lvl : String
  msg : String
  ctx : Option String
  deriving DecidableEq, Repr

/-- A JSON array element of the log file: an event record or the JSON `null`
that `cleanup_old_events` appends when it reads out of range. -/
inductive JVal where
  | null : JVal
  | record (r : EventRecord) : JVal
  deriving DecidableEq, Repr

/-- State of the SPIFFS log file: missing, present but failing to open, or
openable with the given byte content. -/
inductive LogStore where
  | absent : LogStore
  | unopenable (content : String) : LogStore
  | avail (content : String) : LogStore
  deriving DecidableEq, Repr

/-! ### The pretty-printed JSON format (serializeJsonPretty) -/

/-- Escape one character the way ArduinoJson's text formatter does. -/
def escC (c : Char) : Chars :=
  if c = '"' then ['\\', '"']
  else if c = '\\' then ['\\', '\\']
  else if c = '\n' then ['\\', 'n']
  else if c = '\r' then ['\\', 'r']
  else if c = '\t' then ['\\', 't']
  else if c = '\x08' then ['\\', 'b']
  else if c = '\x0c' then ['\\', 'f']
  else [c]

/-- Escape a whole string. -/
def escS (s : Chars) : Chars := s.flatMap escC

/-- Body of a quoted string: escaped content followed by the closing quote
(the opening quote belongs to the preceding literal piece). -/
def qBody (s : Chars) : Chars := escS s ++ ['"']

/-- Literal opening of a pretty-printed record up to the opening quote of the
`ts` value. -/
def recHead : Chars :=
  ['{', '\r', '\n', ' ', ' ', ' ', ' ', '"', 't', 's', '"', ':', ' ', '"']

/-- Literal between the `ts` value and the `lvl` value. -/
def sepLvl : Chars :=
  [',', '\r', '\n', ' ', ' ', ' ', ' ', '"', 'l', 'v', 'l', '"', ':', ' ', '"']

/-- Literal between the `lvl` value and the `msg` value. -/
def sepMsg : Chars :=
  [',', '\r', '\n', ' ', ' ', ' ', ' ', '"', 'm', 's', 'g', '"', ':', ' ', '"']

/-- Literal between the `msg` value and an optional `ctx` value. -/
def sepCtx : Chars :=
  [',', '\r', '\n', ' ', ' ', ' ', ' ', '"', 'c', 't', 'x', '"', ':', ' ', '"']

/-- Literal closing a pretty-printed record. -/
def recTail : Chars := ['\r', '\n', ' ', ' ', '}']

/-- Pretty print one record at array depth. -/
def printRecC (r : EventRecord) : Chars :=
  recHead ++ qBody r.ts.data ++ sepLvl ++ qBody r.lvl.data ++
    sepMsg ++ qBody r.msg.data ++
    (match r.ctx with
     | some c => sepCtx ++ qBody c.data
     | none => []) ++ recTail

/-- The JSON literal `null`. -/
def nullLit : Chars := ['n', 'u', 'l', 'l']

/-- Pretty print one array element. -/
def printValC : JVal → Chars
  | .null => nullLit
  | .record r => printRecC r

/-- Literal opening of a non-empty pretty-printed array. -/
def arrHead : Chars := ['[', '\r', '\n', ' ', ' ']

/-- Literal between two array elements. -/
def arrSep : Chars := [',', '\r', '\n', ' ', ' ']

/-- Literal closing a non-empty pretty-printed array. -/
def arrTail : Chars := ['\r', '\n', ']']

/-- Pretty print the whole event array, as `serializeJsonPretty` renders the
document this program maintains (an empty array prints as `[]`). -/
def printEventsC : List JVal → Chars
  | [] => ['[', ']']
  | x :: xs => arrHead ++ printValC x ++ xs.flatMap (fun v => arrSep ++ printValC v) ++ arrTail

/-- Pretty print to a string (the bytes written back to SPIFFS). -/
def printEvents (l : List JVal) : String := ⟨printEventsC l⟩

/-- Content written by `file.println("[")` followed by `file.println("]")`
(Arduino `println` appends CRLF): the reset/initial form of the log file. -/
def resetChars : Chars := ['[', '\r', '\n', ']', '\r', '\n']

/-- The reset content as a string. -/
def resetContent : String := ⟨resetChars⟩

/-! ### The parser (deserializeJson on the documents this program writes) -/

/-- Consume an expected literal prefix, returning the remainder. -/
def expects : Chars → Chars → Option Chars
  | [], input => some input
  | _ :: _, [] => none
  | p :: ps, c :: cs => if p = c then expects ps cs else none

/-- Inverse of `escC` on the character after a backslash. -/
def unesc (c : Char) : Option Char :=
  if c = '"' then some '"'
  else if c = '\\' then some '\\'
  else if c = 'n' then some '\n'
  else if c = 'r' then some '\r'
  else if c = 't' then some '\t'
  else if c = 'b' then some '\x08'
  else if c = 'f' then some '\x0c'
  else none

/-- Parse the body of a quoted string up to and including the closing quote,
undoing escapes; returns the decoded characters and the remainder. -/
def parseQ : Chars → Option (Chars × Chars)
  | [] => none
  | c :: rest =>
    if c = '"' then some ([], rest)
    else if c = '\\' then
      match rest with
      | [] => none
      | d :: rest2 =>
        match unesc d with
        | none => none
        | some e => (parseQ rest2).map fun p => (e :: p.1, p.2)
    else (parseQ rest).map fun p => (c :: p.1, p.2)

/-- Parse one pretty-printed record. -/
def parseRec (cs : Chars) : Option (EventRecord × Chars) :=
  match expects recHead cs with
  | none => none
  | some r1 =>
    match parseQ r1 with
    | none => none
    | some (ts, r2) =>
      match expects sepLvl r2 with
      | none => none
      | some r3 =>
        match parseQ r3 with
        | none => none
        | some (lvl, r4) =>
          match expects sepMsg r4 with
          | none => none
          | some r5 =>
            match parseQ r5 with
            | none => none
            | some (msg, r6) =>
              match expects sepCtx r6 with
              | some r7 =>
                match parseQ r7 with
                | none => none
                | some (ctx, r8) =>
                  (expects recTail r8).map fun r9 =>
                    (⟨⟨ts⟩, ⟨lvl⟩, ⟨msg⟩, some ⟨ctx⟩⟩, r9)
              | none =>
                (expects recTail r6).map fun r7 =>
                  (⟨⟨ts⟩, ⟨lvl⟩, ⟨msg⟩, none⟩, r7)

/-- Parse one array element: the `null` literal or a record. -/
def parseVal (cs : Chars) : Option (JVal × Chars) :=
  match expects nullLit cs with
  | some r => some (.null, r)
  | none => (parseRec cs).map fun p => (.record p.1, p.2)

/-- Parse the elements of a non-empty array, ended by `arrTail`; `fuel`
bounds the number of elements. -/
def parseItems : Nat → Chars → Option (List JVal × Chars)
  | 0, _ => none
  | fuel + 1, cs =>
    match parseVal cs with
    | none => none
    | some (v, rest) =>
      match expects arrSep rest with
      | some rest2 => (parseItems fuel rest2).map fun p => (v :: p.1, p.2)
      | none => (expects arrTail rest).map fun r => ([v], r)

/-- Parse a whole log file.  Accepts the compact empty array, the CRLF reset
form written by `println`, and the pretty-printed format produced by
`printEventsC`. -/
def parseEventsC (cs : Chars) : Option (List JVal) :=
  if cs = ['[', ']'] ∨ cs = resetChars then some []
  else
    match expects arrHead cs with
    | none => none
    | some r =>
      match parseItems (r.length + 1) r with
      | none => none
      | some (l, rest) => if rest = [] then some l else none

/-- Parse a stored string. -/
def parseEvents (s : String) : Option (List JVal) := parseEventsC s.data

/-! ### Boot validator (boot_validator.cpp) -/

/-- The `Preferences` record in NVS namespace "boot": `boot_count` and
`val_stage`, each `none` when the key was never written (`getInt` then
returns its default).  `val_start` is written only by the unmodelled
`validate_boot_partition` and read by nothing, so it is omitted. -/
structure BootPrefs where
  boot_count : Option Int
  val_stage : Option Int
  deriving DecidableEq, Repr

/-- Observable side effects of the boot validator, in program order. -/
inductive BootAction where
  | logEvent (msg ctx : String) : BootAction
  | setBootPartition (target : String) : BootAction
  | persistBootCount (n : Int) : BootAction
  | persistValStage (n : Int) : BootAction
  | restart : BootAction
  deriving DecidableEq, Repr

/-- Result of a boot-validator entry point: the NVS record afterwards, the
ordered trace of side effects, and whether `ESP.restart()` was reached. -/
structure BootResult where
  prefs : BootPrefs
  trace : List BootAction
  restarted : Bool
  deriving DecidableEq, Repr

/-- Model of `check_boot_loop()`.  `running`/`previous` are the labels of the
running partition and the rollback candidate, `errName` the
`esp_err_to_name` rendering of a failed partition switch, and `switchOk` the
outcome of `esp_ota_set_boot_partition`.  On a successful switch the device
restarts, so the trailing `prefs.putInt("boot_count", boot_count)` of the
function is never reached on that path. -/
def check_boot_loop (running previous errName : String) (switchOk : Bool)
    (prefs : BootPrefs) : BootResult :=
  let boot_count := prefs.boot_count.getD 0 + 1
  if boot_count ≥ 3 then
    let t0 : List BootAction :=
      [.logEvent "BOOT_LOOP_DETECTED" ("count=" ++ toString boot_count),
       .logEvent "ROLLBACK_TRIGGERED" ("from=" ++ running ++ ",to=" ++ previous),
       .setBootPartition previous]
    if switchOk then
      { prefs := { prefs with boot_count := some 0 },
        trace := t0 ++ [.logEvent "ROLLBACK_SUCCESS" ("partition=" ++ previous),
                        .persistBootCount 0, .restart],
        restarted := true }
    else
      { prefs := { prefs with boot_count := some boot_count },
        trace := t0 ++ [.logEvent "ROLLBACK_FAILED" errName,
                        .persistBootCount boot_count],
        restarted := false }
  else
    { prefs := { prefs with boot_count := some boot_count },
      trace := [.persistBootCount boot_count],
      restarted := false }

/-- Model of `mark_validation_checkpoint(stage)`: updates `val_stage` only
when `prefs.getInt("val_stage", -1) >= 0` (validation mode active). -/
def mark_validation_checkpoint (stage : Int) (prefs : BootPrefs) : BootPrefs :=
  if prefs.val_stage.getD (-1) ≥ 0 then { prefs with val_stage := some stage }
  else prefs

/-- The `esp_ota_img_states_t` values of the running partition. -/
inductive OtaImgState where
  | imgNew : OtaImgState
  | pendingVerify : OtaImgState
  | valid : OtaImgState
  | invalid : OtaImgState
  | aborted : OtaImgState
  | undefined : OtaImgState
  deriving DecidableEq, Repr

/-- Model of `commit_firmware_if_pending()`.  `otaState` is `none` when
`esp_ota_get_state_partition` itself fails; `markOk` is the outcome of
`esp_ota_mark_app_valid_cancel_rollback`; `errName` its error rendering. -/
def commit_firmware_if_pending (running errName : String)
    (otaState : Option OtaImgState) (markOk : Bool) (prefs : BootPrefs) :
    Bool × BootPrefs × List BootAction :=
  match otaState with
  | some .pendingVerify =>
    if markOk then
      (true,
       { prefs with boot_count := some 0, val_stage := some (-1) },
       [.logEvent "FIRMWARE_COMMITTED" ("partition=" ++ running),
        .persistBootCount 0, .persistValStage (-1)])
    else
      (false, prefs, [.logEvent "FIRMWARE_COMMIT_FAIL" errName])
  | _ => (false, prefs, [])

/-- Model of `reset_boot_counter_for_new_firmware()`. -/
def reset_boot_counter_for_new_firmware (prefs : BootPrefs) : BootPrefs :=
  { prefs with boot_count := some 0, val_stage := some (-1) }

/-! ### Event logger operations (event_logger.cpp) -/

/-- Modelled from the spec: the `EVENT_LOG_MAX_SIZE_BYTES` constant lives in
`config.h`, which is absent from the sources; the header and spec document
it as 50 KB.  The operations below take the bound as a parameter, so every
theorem about them holds in particular at this value. -/
def EVENT_LOG_MAX_SIZE_BYTES : Nat := 50 * 1024

/-- ArduinoJson array indexing as `cleanup_old_events` uses it:
`events[i]` yields the element for an in-range index and the null variant
otherwise (in the source `i` can be negative when fewer than the minimum
five events are present). -/
def atIdx (l : List JVal) (i : Int) : JVal :=
  if h : 0 ≤ i ∧ i.toNat < l.length then l.get ⟨i.toNat, h.2⟩ else .null

/-- Model of `cleanup_old_events()`.  Reads the log file, parses it, and if
the content length exceeds the bound keeps the events at indices
`[originalCount - targetCount, originalCount)` with
`targetCount = max (originalCount / 2) 5`, rewriting the file with the
pretty printer; otherwise no write happens. -/
def cleanup_old_events (maxSize : Nat) (st : LogStore) : Bool × LogStore :=
  match st with
  | .absent => (false, st)
  | .unopenable _ => (false, st)
  | .avail s =>
    match parseEvents s with
    | none => (false, st)
    | some events =>
      let originalCount := events.length
      if s.length > maxSize then
        let targetCount := max (originalCount / 2) 5
        let startIndex : Int := (originalCount : Int) - (targetCount : Int)
        let kept := (List.range targetCount).map fun k : Nat => atIdx events (startIndex + (k : Int))
        (true, .avail (printEvents kept))
      else
        (true, st)

/-- Model of `log_event(message, context)`.  `mountOk` is the outcome of
`SPIFFS.begin(false)`; `ts` the value of `get_current_timestamp()`.  On a
parse failure the file is rewritten with the `println` reset form and the
call fails; otherwise the new record (context member only when non-empty)
is appended, the file rewritten, and cleanup runs when the written size
exceeds the bound.  Reopening an openable store for writing is modelled as
succeeding (an `unopenable` store already fails at the read).  Sizes are
measured in characters of the model string, matching `String::length()`
byte counts on the ASCII documents this program writes. -/
def log_event (mountOk : Bool) (ts message context : String) (maxSize : Nat)
    (st : LogStore) : Bool × LogStore :=
  if mountOk = false then (false, st)
  else
    match st with
    | .absent => (false, st)
    | .unopenable _ => (false, st)
    | .avail s =>
      match parseEvents s with
      | none => (false, .avail resetContent)
      | some events =>
        let newRec : EventRecord :=
          { ts := ts, lvl := "ERROR", msg := message,
            ctx := if context.length > 0 then some context else none }
        let written := printEvents (events ++ [.record newRec])
        let st2 := LogStore.avail written
        if written.length > maxSize then
          (true, (cleanup_old_events maxSize st2).2)
        else
          (true, st2)

/-- Model of `get_log_file_size()`. -/
def get_log_file_size : LogStore → Nat
  | .absent => 0
  | .unopenable _ => 0
  | .avail s => s.length

/-- Model of `read_all_events()`: `"[]"` when the file is missing or cannot
be opened, the raw content otherwise. -/
def read_all_events : LogStore → String
  | .absent => "[]"
  | .unopenable _ => "[]"
  | .avail s => s

/-- Model of `get_event_count()`: 0 when the file is missing, cannot be
opened, or fails to parse; the array cardinality otherwise. -/
def get_event_count : LogStore → Nat
  | .absent => 0
  | .unopenable _ => 0
  | .avail s =>
    match parseEvents s with
    | none => 0
    | some l => l.length

/-- Number of genuine event records among the array elements (JSON `null`
padding is not a record). -/
def countRecs (l : List JVal) : Nat :=
  l.countP fun v => match v with | .record _ => true | .null => false

/-- Holds when a `persistBootCount v` action occurs in the trace strictly
before any partition-switch action. -/
def persistedBeforeSwitch (tr : List BootAction) (v : Int) : Prop :=
  BootAction.persistBootCount v ∈
    tr.takeWhile fun a => match a with
      | .setBootPartition _ => false
      | _ => true

instance (tr : List BootAction) (v : Int) : Decidable (persistedBeforeSwitch tr v) := by
  unfold persistedBeforeSwitch
  infer_instance

/-! ### Printer/parser inversion -/

theorem expects_append (p r : Chars) : expects p (p ++ r) = some r := by
  induction p with
  | nil => rfl
  | cons c ps ih => simp [expects, ih]

theorem parseQ_quote (cs : Chars) : parseQ ('"' :: cs) = some ([], cs) := by
  unfold parseQ
  simp

theorem parseQ_escape (d e : Char) (h : unesc d = some e) (cs : Chars) :
    parseQ ('\\' :: d :: cs) = (parseQ cs).map fun p => (e :: p.1, p.2) := by
  conv_lhs => rw [parseQ.eq_def]
  simp [h]

theorem parseQ_raw (c : Char) (h1 : c ≠ '"') (h2 : c ≠ '\\') (cs : Chars) :
    parseQ (c :: cs) = (parseQ cs).map fun p => (c :: p.1, p.2) := by
  conv_lhs => rw [parseQ.eq_def]
  simp [h1, h2]

theorem parseQ_qBody (s r : Chars) : parseQ (qBody s ++ r) = some (s, r) := by
  induction s with
  | nil =>
    show parseQ ('"' :: r) = _
    rw [parseQ_quote]
  | cons c cs ih =>
    have hsplit : qBody (c :: cs) ++ r = escC c ++ (qBody cs ++ r) := by
      simp [qBody, escS, List.flatMap_cons, List.append_assoc]
    rw [hsplit]
    by_cases h1 : c = '"'
    · subst h1
      rw [show escC '"' = ['\\', '"'] from by decide, List.cons_append, List.cons_append,
        List.nil_append, parseQ_escape '"' '"' (by decide), ih]
      rfl
    · by_cases h2 : c = '\\'
      · subst h2
        rw [show escC '\\' = ['\\', '\\'] from by decide, List.cons_append, List.cons_append,
          List.nil_append, parseQ_escape '\\' '\\' (by decide), ih]
        rfl
      · by_cases h3 : c = '\n'
        · subst h3
          rw [show escC '\n' = ['\\', 'n'] from by decide, List.cons_append, List.cons_append,
            List.nil_append, parseQ_escape 'n' '\n' (by decide), ih]
          rfl
        · by_cases h4 : c = '\r'
          · subst h4
            rw [show escC '\r' = ['\\', 'r'] from by decide, List.cons_append, List.cons_append,
              List.nil_append, parseQ_escape 'r' '\r' (by decide), ih]
            rfl
          · by_cases h5 : c = '\t'
            · subst h5
              rw [show escC '\t' = ['\\', 't'] from by decide, List.cons_append,
                List.cons_append, List.nil_append, parseQ_escape 't' '\t' (by decide), ih]
              rfl
            · by_cases h6 : c = '\x08'
              · subst h6
                rw [show escC '\x08' = ['\\', 'b'] from by decide, List.cons_append,
                  List.cons_append, List.nil_append, parseQ_escape 'b' '\x08' (by decide), ih]
                rfl
              · by_cases h7 : c = '\x0c'
                · subst h7
                  rw [show escC '\x0c' = ['\\', 'f'] from by decide, List.cons_append,
                    List.cons_append, List.nil_append, parseQ_escape 'f' '\x0c' (by decide), ih]
                  rfl
                · rw [show escC c = [c] from by simp [escC, h1, h2, h3, h4, h5, h6, h7],
                    List.cons_append, List.nil_append, parseQ_raw c h1 h2, ih]
                  rfl

theorem expects_sepCtx_recTail (x : Chars) : expects sepCtx (recTail ++ x) = none := by
  simp [sepCtx, recTail, expects]

theorem expects_arrSep_arrTail (x : Chars) : expects arrSep (arrTail ++ x) = none := by
  simp [arrSep, arrTail, expects]

theorem expects_nullLit_rec (r0 : EventRecord) (x : Chars) :
    expects nullLit (printRecC r0 ++ x) = none := by
  simp [printRecC, recHead, nullLit, expects, List.append_assoc]

theorem parseRec_print (r0 : EventRecord) (rest : Chars) :
    parseRec (printRecC r0 ++ rest) = some (r0, rest) := by
  obtain ⟨⟨ts⟩, ⟨lvl⟩, ⟨msg⟩, ctx⟩ := r0
  cases ctx with
  | none =>
    show parseRec
      (recHead ++ qBody ts ++ sepLvl ++ qBody lvl ++ sepMsg ++ qBody msg ++ [] ++ recTail
        ++ rest) = _
    simp only [List.append_nil, List.append_assoc, parseRec, expects_append, parseQ_qBody,
      expects_sepCtx_recTail]
    rfl
  | some c =>
    obtain ⟨c⟩ := c
    show parseRec
      (recHead ++ qBody ts ++ sepLvl ++ qBody lvl ++ sepMsg ++ qBody msg ++
        (sepCtx ++ qBody c) ++ recTail ++ rest) = _
    simp only [List.append_assoc, parseRec, expects_append, parseQ_qBody]
    rfl

theorem parseVal_print (v : JVal) (rest : Chars) :
    parseVal (printValC v ++ rest) = some (v, rest) := by
  cases v with
  | null =>
    show parseVal (nullLit ++ rest) = _
    simp only [parseVal, expects_append]
  | record r0 =>
    show parseVal (printRecC r0 ++ rest) = _
    simp only [parseVal, expects_nullLit_rec, parseRec_print]
    rfl

theorem parseItems_print (xs : List JVal) : ∀ (fuel : Nat) (x : JVal) (rest : Chars),
    xs.length < fuel →
    parseItems fuel
      (printValC x ++ (xs.flatMap fun v => arrSep ++ printValC v) ++ (arrTail ++ rest)) =
      some (x :: xs, rest) := by
  induction xs with
  | nil =>
    intro fuel x rest h
    match fuel with
    | fuel + 1 =>
      simp only [List.flatMap_nil, List.append_nil, parseItems, parseVal_print,
        expects_arrSep_arrTail, expects_append]
      rfl
  | cons y ys ih =>
    intro fuel x rest h
    match fuel with
    | fuel + 1 =>
      have hsplit :
          printValC x ++ ((y :: ys).flatMap fun v => arrSep ++ printValC v) ++
              (arrTail ++ rest) =
            printValC x ++ (arrSep ++
              (printValC y ++ ((ys.flatMap fun v => arrSep ++ printValC v) ++
                (arrTail ++ rest)))) := by
        simp [List.flatMap_cons, List.append_assoc]
      rw [hsplit]
      simp only [parseItems, parseVal_print, expects_append]
      rw [show printValC y ++ ((ys.flatMap fun v => arrSep ++ printValC v) ++ (arrTail ++ rest)) =
          printValC y ++ (ys.flatMap fun v => arrSep ++ printValC v) ++ (arrTail ++ rest) from by
        simp [List.append_assoc]]
      rw [ih fuel y rest (by simpa using Nat.lt_of_succ_lt_succ h)]
      rfl

theorem length_le_flatMap (xs : List JVal) :
    xs.length ≤ (xs.flatMap fun v => arrSep ++ printValC v).length := by
  induction xs with
  | nil => simp
  | cons y ys ih =>
    rw [List.flatMap_cons, List.length_append, List.length_append, List.length_cons]
    have h5 : arrSep.length = 5 := rfl
    omega

theorem arrHead_not_literal (X : Chars) :
    ¬(arrHead ++ X = ['[', ']'] ∨ arrHead ++ X = resetChars) := by
  intro hor
  rcases hor with hc | hc
  · have hl := congrArg List.length hc
    simp [arrHead] at hl
  · have h3 := congrArg (fun l => l.get? 3) hc
    simp [arrHead, resetChars] at h3

/-- The parser inverts the pretty printer on every document. -/
theorem parseEvents_print (l : List JVal) : parseEvents (printEvents l) = some l := by
  cases l with
  | nil => rfl
  | cons x xs =>
    show parseEventsC (printEventsC (x :: xs)) = _
    rw [show printEventsC (x :: xs) =
        arrHead ++ (printValC x ++ (xs.flatMap fun v => arrSep ++ printValC v) ++
          (arrTail ++ [])) from by
      simp [printEventsC, List.append_assoc]]
    rw [parseEventsC, if_neg (arrHead_not_literal _), expects_append]
    have hlen : xs.length <
        (printValC x ++ (xs.flatMap fun v => arrSep ++ printValC v) ++
          (arrTail ++ [])).length + 1 := by
      have := length_le_flatMap xs
      simp only [List.length_append]
      omega
    have hitems := parseItems_print xs
      ((printValC x ++ (xs.flatMap fun v => arrSep ++ printValC v) ++
        (arrTail ++ [])).length + 1) x [] hlen
    show (match
        parseItems
          ((printValC x ++ (xs.flatMap fun v => arrSep ++ printValC v) ++
            (arrTail ++ [])).length + 1)
          (printValC x ++ (xs.flatMap fun v => arrSep ++ printValC v) ++ (arrTail ++ [])) with
      | none => none
      | some (l, rest) => if rest = [] then some l else none) = some (x :: xs)
    rw [hitems]
    simp

/-! ### The compaction index formula -/

/-- The element-copying loop of `cleanup_old_events`: copying indices
`[originalCount - targetCount, originalCount)` (null for out-of-range reads)
yields null padding followed by the newest retained elements. -/
theorem range_map_atIdx (l : List JVal) (t : Nat) :
    ((List.range t).map fun k : Nat => atIdx l ((l.length : Int) - (t : Int) + (k : Int))) =
      List.replicate (t - l.length) JVal.null ++ l.drop (l.length - t) := by
  apply List.ext_getElem?
  intro k
  rw [List.getElem?_map]
  by_cases hk : k < t
  · rw [List.getElem?_range hk, Option.map_some']
    by_cases hsmall : k < t - l.length
    · rw [List.getElem?_append_left (by simpa using hsmall),
        List.getElem?_replicate_of_lt (by simpa using hsmall)]
      have hneg : ¬(0 ≤ (l.length : Int) - (t : Int) + (k : Int) ∧
          ((l.length : Int) - (t : Int) + (k : Int)).toNat < l.length) := by
        intro hpos
        omega
      rw [show atIdx l ((l.length : Int) - (t : Int) + (k : Int)) = JVal.null from by
        simp only [atIdx]
        rw [dif_neg hneg]]
    · have hge : t - l.length ≤ k := Nat.le_of_not_lt hsmall
      have hpos : 0 ≤ (l.length : Int) - (t : Int) + (k : Int) := by omega
      have htn : ((l.length : Int) - (t : Int) + (k : Int)).toNat < l.length := by omega
      rw [List.getElem?_append_right (by simpa using hge), List.getElem?_drop]
      rw [show atIdx l ((l.length : Int) - (t : Int) + (k : Int)) =
          l.get ⟨((l.length : Int) - (t : Int) + (k : Int)).toNat, htn⟩ from by
        simp only [atIdx]
        rw [dif_pos ⟨hpos, htn⟩]]
      rw [List.get_eq_getElem, ← List.getElem?_eq_getElem]
      congr 1
      simp only [List.length_replicate]
      omega
  · rw [List.getElem?_eq_none (by simpa using Nat.le_of_not_lt hk)]
    rw [show Option.map (fun k : Nat => atIdx l ((l.length : Int) - (t : Int) + (k : Int)))
        none = none from rfl, Eq.comm]
    apply List.getElem?_eq_none
    simp only [List.length_append, List.length_replicate, List.length_drop]
    omega

/-! ### Claims about the boot validator -/

/-- C1: with a stored `boot_count` of 2, `check_boot_loop()` increments it to
3 and attempts the partition switch whether or not the switch succeeds; on
success the stored count is 0 and a restart is requested, on failure the
stored count remains 3 and no restart occurs. -/
theorem check_boot_loop_count_two_scenario :
    (check_boot_loop "app0" "app1" "ESP_ERR_OTA_VALIDATE_FAILED" true
        ⟨some 2, none⟩).prefs.boot_count = some 0 ∧
    (check_boot_loop "app0" "app1" "ESP_ERR_OTA_VALIDATE_FAILED" true
        ⟨some 2, none⟩).restarted = true ∧
    BootAction.setBootPartition "app1" ∈
      (check_boot_loop "app0" "app1" "ESP_ERR_OTA_VALIDATE_FAILED" true
        ⟨some 2, none⟩).trace ∧
    (check_boot_loop "app0" "app1" "ESP_ERR_OTA_VALIDATE_FAILED" false
        ⟨some 2, none⟩).prefs.boot_count = some 3 ∧
    (check_boot_loop "app0" "app1" "ESP_ERR_OTA_VALIDATE_FAILED" false
        ⟨some 2, none⟩).restarted = false ∧
    BootAction.setBootPartition "app1" ∈
      (check_boot_loop "app0" "app1" "ESP_ERR_OTA_VALIDATE_FAILED" false
        ⟨some 2, none⟩).trace ∧
    BootAction.logEvent "BOOT_LOOP_DETECTED" "count=3" ∈
      (check_boot_loop "app0" "app1" "ESP_ERR_OTA_VALIDATE_FAILED" false
        ⟨some 2, none⟩).trace := by
  decide

/-- C2 counterexample: with a stored `boot_count` of 2 and a failing switch,
the incremented value 3 is persisted, but only after the partition-switch
attempt — not before any rollback action, as the claim states. -/
theorem persist_not_before_rollback :
    BootAction.persistBootCount 3 ∈
      (check_boot_loop "app0" "app1" "ESP_ERR_OTA_VALIDATE_FAILED" false
        ⟨some 2, none⟩).trace ∧
    ¬ persistedBeforeSwitch
      (check_boot_loop "app0" "app1" "ESP_ERR_OTA_VALIDATE_FAILED" false
        ⟨some 2, none⟩).trace 3 := by
  decide

/-- C2 amended: `check_boot_loop()` always persists the incremented count on
a completed call, but when the threshold is reached the persist happens only
after the partition-switch attempt: below threshold the trace is exactly the
persist of `b + 1`; at or above threshold no persist of `b + 1` precedes the
switch, the failed-switch path ends by persisting `b + 1`, and the
successful-switch path stores 0. -/
theorem check_boot_loop_persist_ordering (running previous errName : String)
    (switchOk : Bool) (prefs : BootPrefs) (b : Int)
    (hb : prefs.boot_count.getD 0 = b) :
    (b + 1 < 3 →
      (check_boot_loop running previous errName switchOk prefs).trace =
        [BootAction.persistBootCount (b + 1)]) ∧
    (3 ≤ b + 1 →
      (¬ persistedBeforeSwitch
          (check_boot_loop running previous errName switchOk prefs).trace (b + 1)) ∧
      (switchOk = false →
        (check_boot_loop running previous errName switchOk prefs).prefs.boot_count =
          some (b + 1) ∧
        (check_boot_loop running previous errName switchOk prefs).trace.getLast? =
          some (BootAction.persistBootCount (b + 1))) ∧
      (switchOk = true →
        (check_boot_loop running previous errName switchOk prefs).prefs.boot_count =
          some 0)) := by
  simp only [check_boot_loop, hb]
  constructor
  · intro h3
    rw [if_neg (by omega)]
  · intro h3
    rw [if_pos h3]
    cases switchOk with
    | false =>
      rw [if_neg (by simp)]
      refine ⟨?_, fun _ => ⟨rfl, by simp⟩, fun h => by cases h⟩
      simp [persistedBeforeSwitch, List.takeWhile]
    | true =>
      rw [if_pos rfl]
      refine ⟨?_, fun h => absurd h (by decide), fun _ => rfl⟩
      simp [persistedBeforeSwitch, List.takeWhile]

/-- C2 amended, witness at `b = 2` with a failing switch. -/
theorem check_boot_loop_persist_ordering_witness :
    ¬ persistedBeforeSwitch
        (check_boot_loop "app0" "app1" "E" false ⟨some 2, some 0⟩).trace 3 ∧
      (check_boot_loop "app0" "app1" "E" false ⟨some 2, some 0⟩).prefs.boot_count =
        some 3 :=
  ⟨((check_boot_loop_persist_ordering "app0" "app1" "E" false ⟨some 2, some 0⟩ 2
      rfl).2 (by norm_num)).1,
   (((check_boot_loop_persist_ordering "app0" "app1" "E" false ⟨some 2, some 0⟩ 2
      rfl).2 (by norm_num)).2.1 rfl).1⟩

/-- C9: whenever the incremented count is at least 3 (not only exactly 3),
the rollback path triggers; after a failed switch the stored count is the
strictly larger `b + 1`, itself still at or above the threshold, so the next
boot re-attempts the rollback. -/
theorem check_boot_loop_threshold_at_least (running previous errName : String)
    (switchOk : Bool) (prefs : BootPrefs) (b : Int)
    (hb : prefs.boot_count.getD 0 = b) (h2 : 2 ≤ b) :
    BootAction.setBootPartition previous ∈
      (check_boot_loop running previous errName switchOk prefs).trace ∧
    (switchOk = false →
      (check_boot_loop running previous errName switchOk prefs).prefs.boot_count =
        some (b + 1) ∧ b < b + 1 ∧ 3 ≤ b + 1) := by
  simp only [check_boot_loop, hb]
  rw [if_pos (by omega)]
  cases switchOk with
  | false =>
    rw [if_neg (by simp)]
    exact ⟨by simp, fun _ => ⟨rfl, by omega, by omega⟩⟩
  | true =>
    rw [if_pos rfl]
    exact ⟨by simp, fun h => absurd h (by decide)⟩

/-- C9 witness at `b = 5`. -/
theorem check_boot_loop_threshold_at_least_witness :
    BootAction.setBootPartition "app1" ∈
      (check_boot_loop "app0" "app1" "E" false ⟨some 5, none⟩).trace ∧
    (check_boot_loop "app0" "app1" "E" false ⟨some 5, none⟩).prefs.boot_count =
      some 6 :=
  ⟨(check_boot_loop_threshold_at_least "app0" "app1" "E" false ⟨some 5, none⟩ 5
      rfl (by norm_num)).1,
   ((check_boot_loop_threshold_at_least "app0" "app1" "E" false ⟨some 5, none⟩ 5
      rfl (by norm_num)).2 rfl).1⟩

/-- C3: `commit_firmware_if_pending()` is a pure no-op returning failure
whenever the trust state is not `PendingVerification` (no preference write,
no audit event), and when the state is pending but the mark-trusted call
fails it returns failure leaving `boot_count` and `val_stage` untouched. -/
theorem commit_firmware_if_pending_noop (running errName : String)
    (otaState : Option OtaImgState) (markOk : Bool) (prefs : BootPrefs) :
    (otaState ≠ some OtaImgState.pendingVerify →
      commit_firmware_if_pending running errName otaState markOk prefs =
        (false, prefs, [])) ∧
    (markOk = false →
      (commit_firmware_if_pending running errName otaState markOk prefs).1 = false ∧
      (commit_firmware_if_pending running errName otaState markOk prefs).2.1 = prefs) := by
  cases otaState with
  | none => exact ⟨fun _ => rfl, fun _ => ⟨rfl, rfl⟩⟩
  | some st =>
    cases st <;>
      first
        | exact ⟨fun _ => rfl, fun _ => ⟨rfl, rfl⟩⟩
        | exact ⟨fun hne => absurd rfl hne,
            fun hm => by subst hm; exact ⟨rfl, rfl⟩⟩

/-- C3 witness: an already-valid image, and a pending image with a failing
mark-trusted call. -/
theorem commit_firmware_if_pending_noop_witness :
    commit_firmware_if_pending "app0" "E" (some OtaImgState.valid) true
        ⟨some 1, some 2⟩ = (false, ⟨some 1, some 2⟩, []) ∧
    (commit_firmware_if_pending "app0" "E" (some OtaImgState.pendingVerify) false
        ⟨some 1, some 2⟩).1 = false ∧
    (commit_firmware_if_pending "app0" "E" (some OtaImgState.pendingVerify) false
        ⟨some 1, some 2⟩).2.1 = ⟨some 1, some 2⟩ :=
  ⟨(commit_firmware_if_pending_noop "app0" "E" (some OtaImgState.valid) true
      ⟨some 1, some 2⟩).1 (by simp),
   (commit_firmware_if_pending_noop "app0" "E" (some OtaImgState.pendingVerify) false
      ⟨some 1, some 2⟩).2 rfl⟩

/-- C6: `mark_validation_checkpoint(s)` leaves the stored stage unchanged
while the sequencer is disabled (stored stage below 0, or absent), and when
enabled it unconditionally stores `s`; in particular `mark(1)` then `mark(0)`
from an enabled stage-0 state ends with stage 0 (last write wins). -/
theorem mark_validation_checkpoint_spec (prefs : BootPrefs) (s : Int) :
    (prefs.val_stage.getD (-1) < 0 → mark_validation_checkpoint s prefs = prefs) ∧
    (0 ≤ prefs.val_stage.getD (-1) →
      (mark_validation_checkpoint s prefs).val_stage = some s) ∧
    (prefs.val_stage = some 0 →
      (mark_validation_checkpoint 0 (mark_validation_checkpoint 1 prefs)).val_stage =
        some 0) := by
  refine ⟨fun hlt => ?_, fun hge => ?_, fun h0 => ?_⟩
  · rw [mark_validation_checkpoint, if_neg (by omega)]
  · rw [mark_validation_checkpoint, if_pos (by omega)]
  · have h1 : mark_validation_checkpoint 1 prefs = { prefs with val_stage := some 1 } := by
      rw [mark_validation_checkpoint, if_pos (by rw [h0]; norm_num)]
    rw [h1, mark_validation_checkpoint, if_pos (by norm_num)]

/-- C6 witness: enabled at stage 0. -/
theorem mark_validation_checkpoint_spec_witness :
    (mark_validation_checkpoint 3 ⟨some 1, some 0⟩).val_stage = some 3 ∧
    (mark_validation_checkpoint 0
        (mark_validation_checkpoint 1 ⟨some 1, some 0⟩)).val_stage = some 0 ∧
    mark_validation_checkpoint 3 ⟨some 1, some (-2)⟩ = ⟨some 1, some (-2)⟩ :=
  ⟨(mark_validation_checkpoint_spec ⟨some 1, some 0⟩ 3).2.1 (by norm_num),
   (mark_validation_checkpoint_spec ⟨some 1, some 0⟩ 3).2.2 rfl,
   (mark_validation_checkpoint_spec ⟨some 1, some (-2)⟩ 3).1 (by norm_num)⟩

/-! ### Claims about the event logger -/

/-- C10: when the log file does not exist or cannot be opened,
`read_all_events()` returns `"[]"` rather than signalling failure, and
`get_event_count()` returns 0 in the same situations. -/
theorem read_all_events_missing (s : String) :
    read_all_events LogStore.absent = "[]" ∧
    read_all_events (LogStore.unopenable s) = "[]" ∧
    get_event_count LogStore.absent = 0 ∧
    get_event_count (LogStore.unopenable s) = 0 :=
  ⟨rfl, rfl, rfl, rfl⟩

/-- C7: on a parseable stored log whose serialized size is within the bound,
`cleanup_old_events()` succeeds and leaves the stored bytes byte-identical
(no rewrite happens). -/
theorem cleanup_old_events_within_bound (maxSize : Nat) (s : String) (l : List JVal)
    (hp : parseEvents s = some l) (hs : s.length ≤ maxSize) :
    cleanup_old_events maxSize (LogStore.avail s) = (true, LogStore.avail s) := by
  simp only [cleanup_old_events, hp]
  rw [if_neg (by omega)]

/-- C7 witness: a two-record log (pretty-printed) under a 1000-byte bound. -/
theorem cleanup_old_events_within_bound_witness :
    cleanup_old_events 1000 (LogStore.avail (printEvents
        [JVal.record ⟨"t1", "ERROR", "a", none⟩,
         JVal.record ⟨"t2", "ERROR", "b", some "c"⟩])) =
      (true, LogStore.avail (printEvents
        [JVal.record ⟨"t1", "ERROR", "a", none⟩,
         JVal.record ⟨"t2", "ERROR", "b", some "c"⟩])) :=
  cleanup_old_events_within_bound 1000 _ _
    (parseEvents_print [JVal.record ⟨"t1", "ERROR", "a", none⟩,
      JVal.record ⟨"t2", "ERROR", "b", some "c"⟩]) (by decide)

/-- C5: for every message and context, when the stored log fails to parse,
`log_event()` rewrites the store to the empty-collection reset form and
returns failure; both the original content and the new record are gone, and
the call returns normally (fail-soft, no fatal fault). -/
theorem log_event_corrupt_resets (ts message context : String) (maxSize : Nat)
    (s : String) (hp : parseEvents s = none) :
    log_event true ts message context maxSize (LogStore.avail s) =
      (false, LogStore.avail resetContent) := by
  simp only [log_event, hp]
  rw [if_neg (by decide)]

/-- C5 witness: corrupted content `"garbage"`. -/
theorem log_event_corrupt_resets_witness :
    log_event true "T" "WIFI_FAIL" "SSID" 51200 (LogStore.avail "garbage") =
      (false, LogStore.avail resetContent) :=
  log_event_corrupt_resets "T" "WIFI_FAIL" "SSID" 51200 "garbage" (by decide)

/-- Computation of `cleanup_old_events` on a parseable over-bound store:
the retained elements are null padding (when fewer than the minimum five
elements were present) followed by the newest elements. -/
theorem cleanup_over_bound_eq (maxSize : Nat) (s : String) (l : List JVal)
    (hp : parseEvents s = some l) (hs : maxSize < s.length) :
    cleanup_old_events maxSize (LogStore.avail s) =
      (true, LogStore.avail (printEvents
        (List.replicate (max (l.length / 2) 5 - l.length) JVal.null ++
          l.drop (l.length - max (l.length / 2) 5)))) := by
  simp only [cleanup_old_events, hp]
  rw [if_pos (by omega), range_map_atIdx]

/-- C4 amended: on a parseable stored log over the bound,
`cleanup_old_events()` keeps, of the original elements, only the newest
`min original_count (max (original_count / 2) 5)` ones (oldest evicted
first); when at least 5 elements were present this is exactly the newest
`max (original_count / 2) 5`, but when fewer than 5 were present all of them
are kept and the stored array is padded with JSON `null` entries up to 5
elements.  The retained record count never drops below
`min 5 original_count`. -/
theorem cleanup_old_events_over_bound (maxSize : Nat) (s : String) (l : List JVal)
    (hp : parseEvents s = some l) (hs : maxSize < s.length) :
    cleanup_old_events maxSize (LogStore.avail s) =
      (true, LogStore.avail (printEvents
        (List.replicate (max (l.length / 2) 5 - l.length) JVal.null ++
          l.drop (l.length - max (l.length / 2) 5)))) ∧
    (5 ≤ l.length →
      cleanup_old_events maxSize (LogStore.avail s) =
        (true, LogStore.avail (printEvents
          (l.drop (l.length - max (l.length / 2) 5))))) ∧
    ((∀ v ∈ l, v ≠ JVal.null) →
      min 5 l.length ≤
        countRecs (List.replicate (max (l.length / 2) 5 - l.length) JVal.null ++
          l.drop (l.length - max (l.length / 2) 5))) := by
  have hmain := cleanup_over_bound_eq maxSize s l hp hs
  refine ⟨hmain, fun h5 => ?_, fun hnn => ?_⟩
  · rw [hmain]
    rw [show max (l.length / 2) 5 - l.length = 0 from by omega, List.replicate_zero,
      List.nil_append]
  · rw [countRecs, List.countP_append]
    have hrep : (List.replicate (max (l.length / 2) 5 - l.length) JVal.null).countP
        (fun v => match v with | .record _ => true | .null => false) = 0 := by
      rw [List.countP_eq_zero]
      intro a ha
      rw [List.eq_of_mem_replicate ha]
      simp
    have hdrop : (l.drop (l.length - max (l.length / 2) 5)).countP
        (fun v => match v with | .record _ => true | .null => false) =
        (l.drop (l.length - max (l.length / 2) 5)).length := by
      rw [List.countP_eq_length]
      intro a ha
      have hmem : a ∈ l := List.mem_of_mem_drop ha
      have := hnn a hmem
      cases a with
      | null => exact absurd rfl this
      | record r => rfl
    rw [hrep, hdrop, List.length_drop]
    omega

/-- C4 amended, witness: two oversized records under a 10-byte bound. -/
theorem cleanup_old_events_over_bound_witness :
    cleanup_old_events 10 (LogStore.avail (printEvents
        [JVal.record ⟨"t1", "ERROR", "a", none⟩,
         JVal.record ⟨"t2", "ERROR", "b", none⟩])) =
      (true, LogStore.avail (printEvents
        (List.replicate (max (2 / 2) 5 - 2) JVal.null ++
          [JVal.record ⟨"t1", "ERROR", "a", none⟩,
           JVal.record ⟨"t2", "ERROR", "b", none⟩].drop (2 - max (2 / 2) 5)))) :=
  (cleanup_old_events_over_bound 10 _ _
    (parseEvents_print [JVal.record ⟨"t1", "ERROR", "a", none⟩,
      JVal.record ⟨"t2", "ERROR", "b", none⟩]) (by decide)).1

/-- C4 counterexample: a log of 2 records whose serialization exceeds a
10-byte bound.  The claim demands that exactly `max (2 / 2) 5 = 5` newest
records be retained, but after `cleanup_old_events` the store holds 5 array
elements of which only 2 are records (the original ones, prefixed by 3 JSON
`null` padding entries). -/
theorem cleanup_old_events_small_counterexample :
    cleanup_old_events 10 (LogStore.avail (printEvents
        [JVal.record ⟨"t1", "ERROR", "a", none⟩,
         JVal.record ⟨"t2", "ERROR", "b", none⟩])) =
      (true, LogStore.avail (printEvents
        [JVal.null, JVal.null, JVal.null,
         JVal.record ⟨"t1", "ERROR", "a", none⟩,
         JVal.record ⟨"t2", "ERROR", "b", none⟩])) ∧
    10 < (printEvents [JVal.record ⟨"t1", "ERROR", "a", none⟩,
        JVal.record ⟨"t2", "ERROR", "b", none⟩]).length ∧
    max (2 / 2) 5 = 5 ∧
    countRecs [JVal.null, JVal.null, JVal.null,
      JVal.record ⟨"t1", "ERROR", "a", none⟩,
      JVal.record ⟨"t2", "ERROR", "b", none⟩] = 2 ∧
    (2 : Nat) ≠ 5 := by
  decide

/-- The result of a successful `log_event` call on a parseable store,
before and after the conditional compaction. -/
theorem log_event_result (ts message context : String) (maxSize : Nat)
    (s : String) (l : List JVal) (hp : parseEvents s = some l) :
    log_event true ts message context maxSize (LogStore.avail s) =
      if (printEvents (l ++ [JVal.record ⟨ts, "ERROR", message,
          if context.length > 0 then some context else none⟩])).length > maxSize then
        (true, (cleanup_old_events maxSize (LogStore.avail (printEvents (l ++
          [JVal.record ⟨ts, "ERROR", message,
            if context.length > 0 then some context else none⟩])))).2)
      else
        (true, LogStore.avail (printEvents (l ++ [JVal.record ⟨ts, "ERROR", message,
          if context.length > 0 then some context else none⟩]))) := by
  simp only [log_event, hp]
  rw [if_neg (by decide)]

/-- After compaction of an appended collection the newest element survives as
the last element: the null padding sits in front and the drop keeps the tail. -/
theorem kept_getLast (l : List JVal) (r0 : EventRecord) (t : Nat) (ht : 1 ≤ t) :
    (List.replicate (t - (l ++ [JVal.record r0]).length) JVal.null ++
      (l ++ [JVal.record r0]).drop ((l ++ [JVal.record r0]).length - t)).getLast? =
      some (JVal.record r0) := by
  rw [List.drop_append_of_le_length (by simp [List.length_append]; omega),
    ← List.append_assoc]
  exact List.getLast?_concat _

/-- C8: appending an event to a parseable stored log succeeds, and an
immediate `read_all_events()` yields a collection whose last element is the
new record: level `"ERROR"`, the given message, the given context (the
member is absent when the context is empty) — only the timestamp is freshly
assigned.  This holds whether or not the append triggered compaction. -/
theorem log_event_append_then_read (ts message context : String) (maxSize : Nat)
    (s : String) (l : List JVal) (hp : parseEvents s = some l) :
    (log_event true ts message context maxSize (LogStore.avail s)).1 = true ∧
    ∃ l2, parseEvents (read_all_events
        (log_event true ts message context maxSize (LogStore.avail s)).2) = some l2 ∧
      l2.getLast? = some (JVal.record
        { ts := ts, lvl := "ERROR", msg := message,
          ctx := if context.length > 0 then some context else none }) := by
  rw [log_event_result ts message context maxSize s l hp]
  by_cases hw : (printEvents (l ++ [JVal.record ⟨ts, "ERROR", message,
      if context.length > 0 then some context else none⟩])).length > maxSize
  · rw [if_pos hw]
    have hover := cleanup_over_bound_eq maxSize _ _
      (parseEvents_print (l ++ [JVal.record ⟨ts, "ERROR", message,
        if context.length > 0 then some context else none⟩])) (by omega)
    rw [hover]
    exact ⟨rfl, _, parseEvents_print _, kept_getLast l _ _ (by omega)⟩
  · rw [if_neg hw]
    exact ⟨rfl, _, parseEvents_print _, List.getLast?_concat _⟩

/-- C8 witness: appending to the empty stored collection. -/
theorem log_event_append_then_read_witness :
    (log_event true "T" "WIFI_FAIL" "SSID" 51200 (LogStore.avail "[]")).1 = true ∧
    ∃ l2, parseEvents (read_all_events
        (log_event true "T" "WIFI_FAIL" "SSID" 51200 (LogStore.avail "[]")).2) = some l2 ∧
      l2.getLast? = some (JVal.record
        { ts := "T", lvl := "ERROR", msg := "WIFI_FAIL",
          ctx := if "SSID".length > 0 then some "SSID" else none }) :=
  log_event_append_then_read "T" "WIFI_FAIL" "SSID" 51200 "[]" [] (by decide)

end EcoWatt
